import Mathlib

/-!
Verification of the conversational lead-capture agent
(`agent.py`, `intent_detector.py`, `lead_capture.py`).

Strings are embedded as `List Char`; Python regular expressions are
embedded as executable matchers specialised to the concrete patterns in
the source, reproducing the engine's leftmost-match and backtracking
behaviour for those patterns.
-/

/-- Characters of the local-part class `[a-zA-Z0-9._%+-]` shared by
`validate_email` and the e-mail pattern of `extract_info_from_message`
(`lead_capture.py`). -/
def isLocalChar (c : Char) : Bool :=
  c.isAlpha || c.isDigit || c == '.' || c == '_' || c == '%' || c == '+' || c == '-'

/-- Characters of the domain class `[a-zA-Z0-9.-]` in `validate_email`
(`lead_capture.py` line 40). -/
def isDomainChar (c : Char) : Bool :=
  c.isAlpha || c.isDigit || c == '.' || c == '-'

/-- Tail of the `validate_email` pattern: decides whether `r` (the text after
the `@`) matches `[a-zA-Z0-9.-]+\.[a-zA-Z]{2,}` exactly to the end.  The
backtracking search of the engine succeeds exactly when the text after the
last dot consists of two or more letters and the (nonempty) text before that
dot consists of domain characters, so the matcher reads `r` from the right:
the maximal dot-free suffix must be the letters, preceded by a dot, preceded
by a nonempty run of domain characters. -/
def validTail (r : List Char) : Bool :=
  ((r.reverse.dropWhile (fun c => !(c == '.'))).headD ' ' == '.')
    && decide (2 ≤ (r.reverse.takeWhile (fun c => !(c == '.'))).length)
    && (r.reverse.takeWhile (fun c => !(c == '.'))).all Char.isAlpha
    && !((r.reverse.dropWhile (fun c => !(c == '.'))).tail.isEmpty)
    && (r.reverse.dropWhile (fun c => !(c == '.'))).tail.all isDomainChar

/-- Anchored core of the `validate_email` pattern
`^[a-zA-Z0-9._%+-]+@[a-zA-Z0-9.-]+\.[a-zA-Z]{2,}$`: the greedy `+` takes the
maximal run of local characters, which must be nonempty and be followed by
`@` and a matching domain tail consuming the whole rest of the input. -/
def validCore (cs : List Char) : Bool :=
  ((cs.dropWhile isLocalChar).headD ' ' == '@')
    && !(cs.takeWhile isLocalChar).isEmpty
    && validTail (cs.dropWhile isLocalChar).tail

/-- Embedding of `validate_email` (`lead_capture.py` lines 29-41).
`re.match` anchors at the start; the final `$` of the pattern matches either
at the end of the string or just before a single trailing newline, so the
pattern core may also stop one character short of a final `'\n'`. -/
def validate_email (cs : List Char) : Bool :=
  validCore cs || (cs.getLast? == some '\n' && validCore cs.dropLast)

/-- Modelled from the spec: the claimed reading of the validator — the
entire input splits into a nonempty local part, `@`, a domain containing at
least one dot, and a top-level domain of two or more letters, with nothing
before or after (anchored full-string match, no normalization). -/
def emailSpec (cs : List Char) : Prop :=
  ∃ l d t : List Char,
    cs = l ++ '@' :: (d ++ '.' :: t) ∧
    l ≠ [] ∧ l.all isLocalChar ∧
    d ≠ [] ∧ d.all isDomainChar ∧
    t.all Char.isAlpha ∧ 2 ≤ t.length

/-- Python whitespace class `\s` (ASCII range), as matched by `str.strip`
and the `\s` escapes in the extraction patterns. -/
def wsChar (c : Char) : Bool :=
  c == ' ' || c == '\t' || c == '\n' || c == '\r' || c == '\x0b' || c == '\x0c'

/-- Embedding of Python `str.strip()`: remove whitespace from both ends. -/
def pyStrip (cs : List Char) : List Char :=
  ((cs.dropWhile wsChar).reverse.dropWhile wsChar).reverse

/-- Embedding of Python `str.lower()` (ASCII case folding). -/
def pyLower (cs : List Char) : List Char :=
  cs.map Char.toLower

/-- The closed intent enumeration of `intent_detector.py` (`Intent`). -/
inductive Intent where
  | greeting
  | product_inquiry
  | high_intent_lead
deriving DecidableEq

/-- The `.value` string of each `Intent` member. -/
def Intent.value : Intent → List Char
  | Intent.greeting => "greeting".data
  | Intent.product_inquiry => "product_inquiry".data
  | Intent.high_intent_lead => "high_intent_lead".data

/-- Embedding of `IntentDetector.detect` (`intent_detector.py` lines 69-79)
applied to the raw model response text: the response is stripped and
lowercased, then looked up in `intent_map`, defaulting to
`Intent.PRODUCT_INQUIRY` when absent. -/
def detect (raw : List Char) : Intent :=
  if pyLower (pyStrip raw) = "greeting".data then Intent.greeting
  else if pyLower (pyStrip raw) = "product_inquiry".data then Intent.product_inquiry
  else if pyLower (pyStrip raw) = "high_intent_lead".data then Intent.high_intent_lead
  else Intent.product_inquiry

/-- Boolean test that `n` is a leading segment of the second list. -/
def startsB : List Char → List Char → Bool
  | [], _ => true
  | _ :: _, [] => false
  | a :: as, b :: bs => a == b && startsB as bs

/-- Boolean contiguous-substring test, the embedding of Python's
`key in message` on strings. -/
def containsB (n : List Char) : List Char → Bool
  | [] => startsB n []
  | c :: cs => startsB n (c :: cs) || containsB n cs

/-- The `platforms` dictionary of `extract_info_from_message`
(`lead_capture.py` lines 65-76) in insertion (iteration) order. -/
def platformPairs : List (List Char × List Char) :=
  [("youtube".data, "YouTube".data),
   ("instagram".data, "Instagram".data),
   ("tiktok".data, "TikTok".data),
   ("facebook".data, "Facebook".data),
   ("twitter".data, "Twitter".data),
   ("x".data, "Twitter".data),
   ("linkedin".data, "LinkedIn".data),
   ("twitch".data, "Twitch".data),
   ("vimeo".data, "Vimeo".data),
   ("snapchat".data, "Snapchat".data)]

/-- Platform part of `extract_info_from_message` (`lead_capture.py` lines
64-81): the message is lowercased and the first dictionary entry whose key
occurs as a substring wins (`break`). -/
def extractPlatform (msg : List Char) : Option (List Char) :=
  (platformPairs.find? (fun p => containsB p.1 (pyLower msg))).map Prod.snd

/-- Python `\w` word characters (ASCII range), used by the `\b` boundaries
of the e-mail pattern in `extract_info_from_message`. -/
def wordChar (c : Char) : Bool :=
  c.isAlpha || c.isDigit || c == '_'

/-- Characters of the class `[A-Z|a-z]` in the e-mail pattern of
`extract_info_from_message` (`lead_capture.py` line 59); note the literal
`|` inside the class. -/
def isTldChar (c : Char) : Bool :=
  c.isAlpha || c == '|'

/-- Word-boundary test after a match ending in `last` and followed by
`rest`: `\b` holds iff exactly one side is a word character. -/
def tailBoundary (last : Char) (rest : List Char) : Bool :=
  match rest with
  | [] => wordChar last
  | c :: _ => wordChar last != wordChar c

/-- Backtracking of `[A-Z|a-z]{2,}\b` at the end of the e-mail pattern: the
first argument is the reversed maximal TLD-character run still under
consideration, the second the text following it.  The engine first tries
the longest run, then shortens it one character at a time; a run of length
at least two followed by a word boundary succeeds. -/
def tldTryRev : List Char → List Char → Option (List Char)
  | [], _ => none
  | c :: revRest, rest =>
      if !revRest.isEmpty && tailBoundary c rest then some ((c :: revRest).reverse)
      else tldTryRev revRest (c :: rest)

/-- Backtracking of `[A-Za-z0-9.-]+\.` inside the e-mail pattern: the first
argument is the reversed domain-run prefix still claimed by the greedy `+`,
the second the text right after it.  The engine shortens the domain run
from the right; each position whose following character is a literal dot is
tried with the TLD matcher, and the first success produces the matched
`domain ++ dot ++ tld` text. -/
def dotSearch : List Char → List Char → Option (List Char)
  | [], _ => none
  | x :: xs, suffix =>
      match suffix with
      | '.' :: after =>
          (match tldTryRev (after.takeWhile isTldChar).reverse
              (after.dropWhile isTldChar) with
           | some t => some ((x :: xs).reverse ++ '.' :: t)
           | none => dotSearch xs (x :: '.' :: after))
      | _ => dotSearch xs (x :: suffix)

/-- Attempt of the whole e-mail pattern
`\b[A-Za-z0-9._%+-]+@[A-Za-z0-9.-]+\.[A-Z|a-z]{2,}\b` at the current
position; `prevWord` records whether the character before the position is a
word character (for the leading `\b`). -/
def matchEmailAt (prevWord : Bool) (cs : List Char) : Option (List Char) :=
  match cs with
  | [] => none
  | c :: _ =>
      if prevWord == wordChar c then none
      else if (cs.takeWhile isLocalChar).isEmpty then none
      else
        match cs.dropWhile isLocalChar with
        | '@' :: r =>
            (match dotSearch (r.takeWhile isDomainChar).reverse
                (r.dropWhile isDomainChar) with
             | some dt => some (cs.takeWhile isLocalChar ++ '@' :: dt)
             | none => none)
        | _ => none

/-- Leftmost search of the e-mail pattern (`re.search`): positions are
tried left to right. -/
def emailSearch : Bool → List Char → Option (List Char)
  | _, [] => none
  | prevWord, c :: rest =>
      match matchEmailAt prevWord (c :: rest) with
      | some m => some m
      | none => emailSearch (wordChar c) rest

/-- One name word `[A-Z][a-z]+` under `re.IGNORECASE`: a maximal run of two
or more letters at the current position, returned with the remaining text. -/
def nameWordAt (cs : List Char) : Option (List Char × List Char) :=
  if 2 ≤ (cs.takeWhile Char.isAlpha).length then
    some (cs.takeWhile Char.isAlpha, cs.dropWhile Char.isAlpha)
  else none

/-- The capture group `([A-Z][a-z]+(?:\s+[A-Z][a-z]+)?)` of the name
patterns: one word, greedily extended by whitespace and a second word when
they follow directly. -/
def matchW (cs : List Char) : Option (List Char × List Char) :=
  match nameWordAt cs with
  | none => none
  | some (w1, r1) =>
      if (r1.takeWhile wsChar).isEmpty then some (w1, r1)
      else
        match nameWordAt (r1.dropWhile wsChar) with
        | some (w2, r2) => some (w1 ++ r1.takeWhile wsChar ++ w2, r2)
        | none => some (w1, r1)

/-- The alternation `(?:i'?m|i am|my name is|this is|call me|it'?s)` of the
first name pattern, in engine order (optional apostrophe tried first),
lowercased for the case-insensitive comparison. -/
def p1Phrases : List (List Char) :=
  [['i', '\'', 'm'], "im".data, "i am".data, "my name is".data,
   "this is".data, "call me".data, ['i', 't', '\'', 's'], "its".data]

/-- Attempt of name pattern 1 (`lead_capture.py` line 85) at the current
position: an introduction phrase, mandatory whitespace, then the capture
group. -/
def p1At (cs : List Char) : Option (List Char) :=
  p1Phrases.findSome? fun ph =>
    if startsB ph (pyLower cs) then
      if ((cs.drop ph.length).takeWhile wsChar).isEmpty then none
      else (matchW ((cs.drop ph.length).dropWhile wsChar)).map Prod.fst
    else none

/-- Attempt of name pattern 2, `name[:\s]+(...)` (`lead_capture.py` line
86), at the current position. -/
def p2At (cs : List Char) : Option (List Char) :=
  if startsB "name".data (pyLower cs) then
    if ((cs.drop 4).takeWhile (fun c => c == ':' || wsChar c)).isEmpty then none
    else (matchW ((cs.drop 4).dropWhile (fun c => c == ':' || wsChar c))).map Prod.fst
  else none

/-- Name pattern 3, `^([A-Z][a-z]+(?:\s+[A-Z][a-z]+)?)(?:\s|$)`
(`lead_capture.py` line 87), anchored at the start of the message.  The
backtracking engine keeps the two-word capture only when whitespace or the
end follows it; otherwise it falls back to the one-word capture, which
needs whitespace or the end right after the first word. -/
def p3Match (cs : List Char) : Option (List Char) :=
  match nameWordAt cs with
  | none => none
  | some (w1, r1) =>
      if (r1.takeWhile wsChar).isEmpty then
        if r1.isEmpty then some w1 else none
      else
        match nameWordAt (r1.dropWhile wsChar) with
        | some (w2, r2) =>
            if r2.isEmpty || wsChar (r2.headD ' ') then
              some (w1 ++ r1.takeWhile wsChar ++ w2)
            else some w1
        | none => some w1

/-- Attempt of name pattern 4, `([A-Z][a-z]+\s+[A-Z][a-z]+)`
(`lead_capture.py` line 88), at the current position: two words separated
by whitespace, both mandatory. -/
def p4At (cs : List Char) : Option (List Char) :=
  match nameWordAt cs with
  | none => none
  | some (w1, r1) =>
      if (r1.takeWhile wsChar).isEmpty then none
      else (nameWordAt (r1.dropWhile wsChar)).map
        (fun p => w1 ++ r1.takeWhile wsChar ++ p.1)

/-- Leftmost `re.search` driver for a position-wise pattern attempt. -/
def searchFrom (f : List Char → Option (List Char)) : List Char → Option (List Char)
  | [] => f []
  | c :: rest =>
      match f (c :: rest) with
      | some m => some m
      | none => searchFrom f rest

/-- Validation applied to a matched name group (`lead_capture.py` lines
93-97): `.strip()`, then the candidate is accepted if shorter than 50
characters and free of `@`. -/
def nameCandidate (g : List Char) : Option (List Char) :=
  if (pyStrip g).length < 50 && !((pyStrip g).contains '@') then some (pyStrip g)
  else none

/-- Name part of `extract_info_from_message` (`lead_capture.py` lines
83-97): the four patterns are searched in order; a pattern whose match
fails the candidate validation does not stop the loop (no `break` in that
case), so the next pattern is tried. -/
def extractName (msg : List Char) : Option (List Char) :=
  [searchFrom p1At msg, searchFrom p2At msg, p3Match msg,
   searchFrom p4At msg].findSome? (fun res => res.bind nameCandidate)

/-- Result record of `extract_info_from_message`: the `extracted` dict,
with each key optional. -/
structure ExtractedInfo where
  email : Option (List Char)
  platform : Option (List Char)
  name : Option (List Char)
deriving DecidableEq

/-- Embedding of `extract_info_from_message` (`lead_capture.py` lines
44-99): e-mail by regex search, platform by prioritized substring scan,
name by the ordered pattern list. -/
def extract_info_from_message (msg : List Char) : ExtractedInfo :=
  { email := emailSearch false msg
    platform := extractPlatform msg
    name := extractName msg }

/-- Characters that can occur in a message that consists only of an e-mail
address: local-part characters (which include the domain and TLD classes)
or the `@`. -/
def emailCharP (c : Char) : Prop := isLocalChar c = true ∨ c = '@'

/-- The `lead_info` dict of `AgentState` (`agent.py` line 20): each key is
present (`some`) or absent (`none`); a present value may be any string,
including the empty one. -/
structure LeadInfo where
  name : Option (List Char)
  email : Option (List Char)
  platform : Option (List Char)
deriving DecidableEq

/-- Python truthiness test `"k" in d and d.get("k")` for a lead field: the
key is present and its value is a nonempty string. -/
def truthy (o : Option (List Char)) : Bool :=
  match o with
  | some v => !v.isEmpty
  | none => false

/-- Python `bool(lead_info)`: the dict holds at least one key (even one
mapped to an empty string). -/
def leadNonEmpty (ld : LeadInfo) : Bool :=
  ld.name.isSome || ld.email.isSome || ld.platform.isSome

/-- The `is_collecting_lead` predicate of `_process_message` (`agent.py`
lines 107-112): the lead dict is nonempty and the truthiness-and-validity
completeness conjunction fails. -/
def is_collecting (ld : LeadInfo) : Bool :=
  leadNonEmpty ld &&
    !(truthy ld.name && truthy ld.email && validate_email (ld.email.getD [])
        && truthy ld.platform)

/-- The merge step of `_handle_lead` (`agent.py` lines 188-194): an
extracted field is committed only when its key is absent from `lead_info`
(key presence, not truthiness). -/
def mergeLead (ld : LeadInfo) (ex : ExtractedInfo) : LeadInfo :=
  { name := if ex.name.isSome && ld.name.isNone then ex.name else ld.name
    email := if ex.email.isSome && ld.email.isNone then ex.email else ld.email
    platform := if ex.platform.isSome && ld.platform.isNone then ex.platform
      else ld.platform }

/-- The exact strings appended to `missing` (`agent.py` lines 197-203). -/
def nameLabel : List Char := "name".data

/-- Missing-list entry for the e-mail field. -/
def emailLabel : List Char := "email".data

/-- Missing-list entry for the platform field — note it is the long
parenthesised string, not `"platform"`. -/
def platformLabel : List Char := "platform (e.g., YouTube, Instagram)".data

/-- The missing-field list of `_handle_lead` (`agent.py` lines 196-203):
key presence only. -/
def computeMissing (ld : LeadInfo) : List (List Char) :=
  (if ld.name.isNone then [nameLabel] else []) ++
  (if ld.email.isNone then [emailLabel] else []) ++
  (if ld.platform.isNone then [platformLabel] else [])

/-- Prompt for all three fields (`agent.py` line 208). -/
def askAllMsg : List Char :=
  "Great! I\x27d love to help you get started with AutoStream. To proceed, I\x27ll need a few details:\n\n1. What\x27s your name?\n2. What\x27s your email address?\n3. Which platform do you create content on? (YouTube, Instagram, TikTok, etc.)".data

/-- Prompt for name and e-mail (`agent.py` line 211). -/
def askNameEmailMsg : List Char :=
  "I\x27d like to collect your name and email address to proceed.".data

/-- Prompt for name and platform (`agent.py` line 213). -/
def askNamePlatformMsg : List Char :=
  "I\x27d like to know your name and which platform you create content on.".data

/-- Prompt for e-mail and platform (`agent.py` line 215). -/
def askEmailPlatformMsg : List Char :=
  "I\x27d like to collect your email and which platform you create content on.".data

/-- Prompt for the name alone (`agent.py` line 218). -/
def askNameMsg : List Char := "What\x27s your name?".data

/-- Prompt for the e-mail alone (`agent.py` line 220). -/
def askEmailMsg : List Char := "What\x27s your email address?".data

/-- Prompt for the platform alone (`agent.py` line 222). -/
def askPlatformMsg : List Char :=
  "Which platform do you create content on? (YouTube, Instagram, TikTok, etc.)".data

/-- Acknowledgement used when nothing is missing (`agent.py` line 224). -/
def thanksMsg : List Char := "Thank you! I have all the information I need.".data

/-- Re-prompt of `_collect_lead_info` for an invalid e-mail (`agent.py`
line 252); unreachable in the compiled graph, see the C3 theorem. -/
def needValidEmailMsg : List Char :=
  "I need a valid email address. Could you please provide your email?".data

/-- Confirmation template of `_collect_lead_info` (`agent.py` line 260). -/
def confirmationMsg (n e p : List Char) : List Char :=
  "Perfect! I\x27ve captured your information:\n- Name: ".data ++ n ++
  "\n- Email: ".data ++ e ++ "\n- Platform: ".data ++ p ++
  "\n\nOur team will reach out to you shortly to help you get started with AutoStream!".data

/-- Prompt selection of `_handle_lead` for a nonempty missing list
(`agent.py` lines 205-222), including the literal membership tests; the
two-field branch tests the literal string `"platform"`, which never equals
the long platform label actually stored in the list. -/
def leadResponse (missing : List (List Char)) : List Char :=
  if missing.length = 3 then askAllMsg
  else if missing.length = 2 then
    if missing.contains nameLabel && missing.contains emailLabel then askNameEmailMsg
    else if missing.contains nameLabel && missing.contains "platform".data then
      askNamePlatformMsg
    else askEmailPlatformMsg
  else
    if missing.contains nameLabel then askNameMsg
    else if missing.contains emailLabel then askEmailMsg
    else askPlatformMsg

/-- Embedding of `_handle_lead` (`agent.py` lines 175-227): merge the
extraction into the lead, then answer with the missing-field prompt or the
acknowledgement. -/
def handle_lead (ld : LeadInfo) (msg : List Char) : LeadInfo × List Char :=
  (mergeLead ld (extract_info_from_message msg),
   if (computeMissing (mergeLead ld (extract_info_from_message msg))).isEmpty
   then thanksMsg
   else leadResponse (computeMissing (mergeLead ld (extract_info_from_message msg))))

/-- Embedding of `_check_lead_info_complete` (`agent.py` lines 229-239):
truthiness of all three fields plus e-mail validity. -/
def check_lead_info_complete (ld : LeadInfo) : Bool :=
  truthy ld.name && truthy ld.email && validate_email (ld.email.getD [])
    && truthy ld.platform

/-- Embedding of `_collect_lead_info` (`agent.py` lines 241-263): the
returned pair holds the appended agent messages and the list of
`mock_lead_capture` invocations with their arguments. -/
def collect_lead_info (ld : LeadInfo) :
    List (List Char) × List (List Char × List Char × List Char) :=
  if !validate_email (ld.email.getD []) then ([needValidEmailMsg], [])
  else ([confirmationMsg (ld.name.getD []) (ld.email.getD []) (ld.platform.getD [])],
        [(ld.name.getD [], ld.email.getD [], ld.platform.getD [])])

/-- The per-conversation state threaded through turns (`AgentState` in
`agent.py`): the lead dict, the last resolved intent string and the turn
counter.  The message history only feeds the classifier prompt, which is
modelled by the per-turn classifier-response oracle. -/
structure AgentState where
  lead_info : LeadInfo
  intent : List Char
  conversation_turn : Nat
deriving DecidableEq

/-- Result of one processed turn: the successor state, the agent messages
appended during the turn, and the lead-capture sink invocations. -/
structure TurnResult where
  state : AgentState
  aiMessages : List (List Char)
  sinkEvents : List (List Char × List Char × List Char)
deriving DecidableEq

/-- Intent resolution of `_process_message` (`agent.py` lines 106-121):
while collecting, the intent is forced to `high_intent_lead` without the
classifier; otherwise the classifier raw response is mapped by `detect`. -/
def resolveIntent (s : AgentState) (raw : List Char) : Intent :=
  if is_collecting s.lead_info then Intent.high_intent_lead else detect raw

/-- One full turn of the compiled graph (`agent.py`): `_process_message`,
routing by the resolved intent, then the greeting / inquiry branch (whose
generated prose is the `greetText` / `inquiryText` oracle) or the lead
branch with its completeness check and conditional `_collect_lead_info`. -/
def processTurn (s : AgentState) (msg raw greetText inquiryText : List Char) :
    TurnResult :=
  match resolveIntent s raw with
  | Intent.greeting =>
      { state := { lead_info := s.lead_info, intent := Intent.greeting.value,
                   conversation_turn := s.conversation_turn + 1 },
        aiMessages := [greetText], sinkEvents := [] }
  | Intent.product_inquiry =>
      { state := { lead_info := s.lead_info, intent := Intent.product_inquiry.value,
                   conversation_turn := s.conversation_turn + 1 },
        aiMessages := [inquiryText], sinkEvents := [] }
  | Intent.high_intent_lead =>
      if check_lead_info_complete (handle_lead s.lead_info msg).1 then
        { state := { lead_info := (handle_lead s.lead_info msg).1,
                     intent := Intent.high_intent_lead.value,
                     conversation_turn := s.conversation_turn + 1 },
          aiMessages := (handle_lead s.lead_info msg).2 ::
            (collect_lead_info (handle_lead s.lead_info msg).1).1,
          sinkEvents := (collect_lead_info (handle_lead s.lead_info msg).1).2 }
      else
        { state := { lead_info := (handle_lead s.lead_info msg).1,
                     intent := Intent.high_intent_lead.value,
                     conversation_turn := s.conversation_turn + 1 },
          aiMessages := [(handle_lead s.lead_info msg).2], sinkEvents := [] }

/-- Inputs of one turn: the user message, the classifier raw response and
the two text-generation oracle outputs. -/
structure TurnInput where
  msg : List Char
  raw : List Char
  greetText : List Char
  inquiryText : List Char

/-- Several consecutive turns: final state and all sink invocations. -/
def runTurns : AgentState → List TurnInput →
    AgentState × List (List Char × List Char × List Char)
  | s, [] => (s, [])
  | s, t :: ts =>
      ((runTurns (processTurn s t.msg t.raw t.greetText t.inquiryText).state ts).1,
       (processTurn s t.msg t.raw t.greetText t.inquiryText).sinkEvents ++
         (runTurns (processTurn s t.msg t.raw t.greetText t.inquiryText).state ts).2)

/-- Merged lead after the extraction step of a turn. -/
def mergedLead (s : AgentState) (msg : List Char) : LeadInfo :=
  mergeLead s.lead_info (extract_info_from_message msg)

/-- A conversation state from which no completion is possible: name and
platform truthy, e-mail key present but its value failing validation. -/
def deadEndB (ld : LeadInfo) : Bool :=
  truthy ld.name && ld.email.isSome && !validate_email (ld.email.getD [])
    && truthy ld.platform

/-- State with name and a valid e-mail set, platform missing. -/
def stateC1w : AgentState :=
  ⟨⟨some "John".data, some "a@b.cc".data, none⟩, [], 0⟩

/-- State with only the platform set. -/
def stateC1w2 : AgentState :=
  ⟨⟨none, none, some "YouTube".data⟩, [], 0⟩

/-- State mid slot-filling: only the name is known. -/
def stateC2w : AgentState :=
  ⟨⟨some "John".data, none, none⟩, [], 1⟩

/-- State whose lead is fully keyed but whose e-mail fails validation. -/
def stateC3 : AgentState :=
  ⟨⟨some "John Doe".data, some "john@invalid".data, some "YouTube".data⟩, [], 3⟩

/-- Dead-end state: the stored e-mail `ab@cd.e|f` was produced by the
extractor pattern (whose TLD class contains a literal `|`) but fails
validation. -/
def stateC4w : AgentState :=
  ⟨⟨some "John".data, some "ab@cd.e|f".data, some "YouTube".data⟩, [], 2⟩

/-- Lead with the name key present but mapped to the empty string. -/
def leadEmptyName : LeadInfo := ⟨some [], some "a@b.cc".data, some "YouTube".data⟩

/-- The same lead with the name key absent. -/
def leadNoName : LeadInfo := ⟨none, some "a@b.cc".data, some "YouTube".data⟩

/-- State around `leadEmptyName`. -/
def stateEmptyName : AgentState := ⟨leadEmptyName, [], 0⟩

/-- State around `leadNoName`. -/
def stateNoName : AgentState := ⟨leadNoName, [], 0⟩

/-- State whose missing-field list is empty and e-mail valid, yet whose
empty-string name keeps the completeness check false. -/
def stateC10 : AgentState := ⟨⟨some [], some "a@b.cc".data, some "YouTube".data⟩, [], 0⟩

/-- State one platform short of completion, with name and e-mail stored. -/
def stateC10w : AgentState :=
  ⟨⟨some "John Doe".data, some "john.doe@example.com".data, none⟩, [], 2⟩

lemma takeWhile_append_of_all {p : Char → Bool} {xs : List Char} (ys : List Char)
    {y : Char} (h : xs.all p = true) (hy : p y = false) :
    (xs ++ y :: ys).takeWhile p = xs := by
  induction xs with
  | nil => simp [List.takeWhile_cons, hy]
  | cons a as ih =>
      simp only [List.all_cons, Bool.and_eq_true] at h
      simp [List.takeWhile_cons, h.1, ih h.2]

lemma dropWhile_append_of_all {p : Char → Bool} {xs : List Char} (ys : List Char)
    {y : Char} (h : xs.all p = true) (hy : p y = false) :
    (xs ++ y :: ys).dropWhile p = y :: ys := by
  induction xs with
  | nil => simp [List.dropWhile_cons, hy]
  | cons a as ih =>
      simp only [List.all_cons, Bool.and_eq_true] at h
      simp [List.dropWhile_cons, h.1, ih h.2]

lemma isEmpty_false_iff (l : List Char) : l.isEmpty = false ↔ l ≠ [] := by
  cases l <;> simp

lemma alpha_not_dot {c : Char} (h : c.isAlpha = true) : (!(c == '.')) = true := by
  cases hbe : c == '.' with
  | false => rfl
  | true =>
      have hc : c = '.' := by simpa using hbe
      subst hc
      exact absurd h (by decide)

/-- Soundness and completeness of the executable validator core against the
structural description of the pattern. -/
theorem validCore_iff (cs : List Char) : validCore cs = true ↔ emailSpec cs := by
  constructor
  · intro h
    unfold validCore at h
    simp only [Bool.and_eq_true] at h
    obtain ⟨⟨hhead, hne⟩, htail⟩ := h
    cases hdw : cs.dropWhile isLocalChar with
    | nil => rw [hdw] at hhead; exact absurd hhead (by decide)
    | cons c r =>
        rw [hdw] at hhead htail
        simp only [List.headD_cons, beq_iff_eq] at hhead
        subst hhead
        simp only [List.tail_cons] at htail
        have hsplit : cs.takeWhile isLocalChar ++ '@' :: r = cs := by
          rw [← hdw]; exact List.takeWhile_append_dropWhile isLocalChar cs
        unfold validTail at htail
        simp only [Bool.and_eq_true, beq_iff_eq, decide_eq_true_eq] at htail
        obtain ⟨⟨⟨⟨hhd, hlen⟩, halpha⟩, htne⟩, hdall⟩ := htail
        cases hdw2 : r.reverse.dropWhile (fun c => !(c == '.')) with
        | nil =>
            rw [hdw2] at htne
            exact absurd htne (by decide)
        | cons c' drev =>
            rw [hdw2] at hhd htne hdall
            simp only [List.headD_cons] at hhd
            subst hhd
            simp only [List.tail_cons, Bool.not_eq_true'] at htne hdall
            rw [isEmpty_false_iff] at htne
            have hsplit2 : r.reverse.takeWhile (fun c => !(c == '.')) ++ '.' :: drev
                = r.reverse := by
              rw [← hdw2]
              exact List.takeWhile_append_dropWhile (fun c => !(c == '.')) r.reverse
            set t := r.reverse.takeWhile (fun c => !(c == '.')) with ht
            have hr : r = drev.reverse ++ '.' :: t.reverse := by
              have h2 := congrArg List.reverse hsplit2
              rw [List.reverse_reverse] at h2
              rw [← h2, List.reverse_append, List.reverse_cons, List.append_assoc]
              simp
            rw [hr] at hsplit
            refine ⟨cs.takeWhile isLocalChar, drev.reverse, t.reverse,
              hsplit.symm, ?_, ?_, ?_, ?_, ?_, ?_⟩
            · rw [← isEmpty_false_iff]
              simpa using hne
            · rw [List.all_eq_true]
              intro x hx
              exact List.mem_takeWhile_imp hx
            · simpa [List.reverse_eq_nil_iff] using htne
            · rw [List.all_eq_true]
              intro x hx
              rw [List.all_eq_true] at hdall
              exact hdall x (List.mem_reverse.mp hx)
            · rw [List.all_eq_true]
              intro x hx
              rw [List.all_eq_true] at halpha
              exact halpha x (List.mem_reverse.mp hx)
            · simpa using hlen
  · rintro ⟨l, d, t, hcs, hl, hlall, hd, hdall, htall, htlen⟩
    have hAt : isLocalChar '@' = false := by decide
    have hdw : cs.dropWhile isLocalChar = '@' :: (d ++ '.' :: t) := by
      rw [hcs]; exact dropWhile_append_of_all _ hlall hAt
    have htw : cs.takeWhile isLocalChar = l := by
      rw [hcs]; exact takeWhile_append_of_all _ hlall hAt
    have hrev : (d ++ '.' :: t).reverse = t.reverse ++ '.' :: d.reverse := by
      rw [List.reverse_append, List.reverse_cons, List.append_assoc]; simp
    have htrall : t.reverse.all (fun c => !(c == '.')) = true := by
      rw [List.all_eq_true]
      intro x hx
      rw [List.all_eq_true] at htall
      exact alpha_not_dot (htall x (List.mem_reverse.mp hx))
    have hdot : (fun c : Char => !(c == '.')) '.' = false := by decide
    have hdw2 : (d ++ '.' :: t).reverse.dropWhile (fun c => !(c == '.'))
        = '.' :: d.reverse := by
      rw [hrev]; exact dropWhile_append_of_all _ htrall hdot
    have htw2 : (d ++ '.' :: t).reverse.takeWhile (fun c => !(c == '.'))
        = t.reverse := by
      rw [hrev]; exact takeWhile_append_of_all _ htrall hdot
    have htall' : t.reverse.all Char.isAlpha = true := by
      rw [List.all_eq_true]
      intro x hx
      rw [List.all_eq_true] at htall
      exact htall x (List.mem_reverse.mp hx)
    have hdall' : d.reverse.all isDomainChar = true := by
      rw [List.all_eq_true]
      intro x hx
      rw [List.all_eq_true] at hdall
      exact hdall x (List.mem_reverse.mp hx)
    have hvt : validTail (d ++ '.' :: t) = true := by
      unfold validTail
      rw [hdw2, htw2]
      simp only [List.headD_cons, List.tail_cons]
      rw [htall', hdall', List.length_reverse]
      simp [htlen, isEmpty_false_iff, List.reverse_eq_nil_iff, hd]
    unfold validCore
    rw [hdw, htw]
    simp only [List.headD_cons, List.tail_cons]
    rw [hvt]
    simp [isEmpty_false_iff, hl]

/-- C6 counterexample: `validate_email` accepts a string with a trailing
newline, which is not an anchored full-string match of the claimed shape
(Python `$` also matches just before a final newline). -/
theorem validator_trailing_newline_cex :
    validate_email "a@b.cc\n".data = true ∧ ¬ emailSpec "a@b.cc\n".data :=
  ⟨by decide, fun h => absurd ((validCore_iff _).mpr h) (by decide)⟩

/-- C6 (amended): `validate_email` returns true exactly when the input —
or the input with a single trailing newline removed — consists of a local
part, `@`, a domain containing at least one dot, and a top-level domain of
two or more letters; no other normalization is applied. -/
theorem validate_email_iff_spec (cs : List Char) :
    validate_email cs = true ↔
      (emailSpec cs ∨ (cs.getLast? = some '\n' ∧ emailSpec cs.dropLast)) := by
  unfold validate_email
  rw [Bool.or_eq_true, Bool.and_eq_true, validCore_iff, validCore_iff]
  apply or_congr Iff.rfl
  apply and_congr _ Iff.rfl
  cases cs.getLast? with
  | none => simp
  | some c => simp

/-- C5 counterexample: the classifier response `"GREETING"` is not one of
the three intent labels, yet `detect` resolves it to `greeting`, not
`product_inquiry`, because the code lowercases and strips the raw response
before the lookup. -/
theorem classifier_unnormalized_label_cex :
    ("GREETING".data ≠ "greeting".data ∧
     "GREETING".data ≠ "product_inquiry".data ∧
     "GREETING".data ≠ "high_intent_lead".data) ∧
    detect "GREETING".data = Intent.greeting ∧
    Intent.greeting ≠ Intent.product_inquiry := by
  decide

/-- C5 (amended): any classifier response whose stripped, lowercased form
is not one of the three intent labels resolves to `product_inquiry`. -/
theorem unknown_classifier_output_defaults (raw : List Char)
    (h1 : pyLower (pyStrip raw) ≠ "greeting".data)
    (h2 : pyLower (pyStrip raw) ≠ "product_inquiry".data)
    (h3 : pyLower (pyStrip raw) ≠ "high_intent_lead".data) :
    detect raw = Intent.product_inquiry := by
  unfold detect
  rw [if_neg h1, if_neg h2, if_neg h3]

/-- C5 witness: a concrete unknown response defaults to `product_inquiry`. -/
theorem unknown_classifier_output_defaults_witness :
    detect "hello there".data = Intent.product_inquiry :=
  unknown_classifier_output_defaults "hello there".data
    (by decide) (by decide) (by decide)

lemma find?_map_snd_eq_some {α β : Type} (l : List (α × β)) (p : α × β → Bool)
    (v : β) :
    ((l.find? p).map Prod.snd = some v) ↔
      ∃ pre kv post, l = pre ++ kv :: post ∧ p kv = true ∧ kv.2 = v ∧
        ∀ q ∈ pre, p q = false := by
  induction l with
  | nil =>
      constructor
      · intro h; simp [List.find?] at h
      · rintro ⟨pre, kv, post, habs, -⟩
        exact absurd habs (by cases pre <;> simp)
  | cons a l ih =>
      cases hpa : p a with
      | true =>
          rw [List.find?_cons_of_pos _ hpa]
          simp only [Option.map_some', Option.some.injEq]
          constructor
          · intro h
            exact ⟨[], a, l, rfl, hpa, h, by simp⟩
          · rintro ⟨pre, kv, post, heq, hkv, hv, hpre⟩
            cases pre with
            | nil =>
                simp only [List.nil_append, List.cons.injEq] at heq
                rw [← heq.1] at hv
                exact hv
            | cons b pre' =>
                simp only [List.cons_append, List.cons.injEq] at heq
                have hb := hpre b (by simp)
                rw [← heq.1] at hb
                rw [hpa] at hb
                exact absurd hb (by decide)
      | false =>
          rw [List.find?_cons_of_neg _ (by simp [hpa])]
          rw [ih]
          constructor
          · rintro ⟨pre, kv, post, heq, hkv, hv, hpre⟩
            refine ⟨a :: pre, kv, post, by rw [heq, List.cons_append], hkv, hv, ?_⟩
            intro q hq
            rcases List.mem_cons.mp hq with h | h
            · rw [h]; exact hpa
            · exact hpre q h
          · rintro ⟨pre, kv, post, heq, hkv, hv, hpre⟩
            cases pre with
            | nil =>
                simp only [List.nil_append, List.cons.injEq] at heq
                rw [heq.1] at hpa
                rw [hkv] at hpa
                exact absurd hpa (by decide)
            | cons b pre' =>
                simp only [List.cons_append, List.cons.injEq] at heq
                refine ⟨pre', kv, post, heq.2, hkv, hv, ?_⟩
                intro q hq
                exact hpre q (List.mem_cons_of_mem b hq)

/-- C7: the platform field is computed by a case-insensitive substring scan
of the fixed priority-ordered platform list: a value is produced exactly
when some entry's key occurs in the lowercased message and every earlier
entry's key does not (first match wins); no value is produced exactly when
no key occurs.  The result type yields at most one platform per message. -/
theorem platform_extraction_first_match (msg : List Char) :
    (∀ v, extractPlatform msg = some v ↔
      ∃ pre kv post, platformPairs = pre ++ kv :: post ∧
        containsB kv.1 (pyLower msg) = true ∧ kv.2 = v ∧
        ∀ q ∈ pre, containsB q.1 (pyLower msg) = false) ∧
    (extractPlatform msg = none ↔
      ∀ kv ∈ platformPairs, containsB kv.1 (pyLower msg) = false) := by
  constructor
  · intro v
    exact find?_map_snd_eq_some platformPairs _ v
  · unfold extractPlatform
    rw [Option.map_eq_none', List.find?_eq_none]
    constructor
    · intro h kv hkv
      have := h kv hkv
      simpa using this
    · intro h kv hkv
      simp [h kv hkv]

lemma domain_char_local {c : Char} (h : isDomainChar c = true) :
    isLocalChar c = true := by
  simp only [isDomainChar, Bool.or_eq_true] at h
  rcases h with ((h | h) | h) | h <;> simp [isLocalChar, h]

lemma alpha_char_local {c : Char} (h : c.isAlpha = true) :
    isLocalChar c = true := by
  simp [isLocalChar, h]

lemma emailSpec_chars {cs : List Char} (h : emailSpec cs) :
    ∀ c ∈ cs, emailCharP c := by
  obtain ⟨l, d, t, hcs, -, hlall, -, hdall, htall, -⟩ := h
  intro c hc
  rw [hcs] at hc
  simp only [List.mem_append, List.mem_cons] at hc
  rw [List.all_eq_true] at hlall hdall htall
  rcases hc with hc | hc | hc | hc | hc
  · exact Or.inl (hlall c hc)
  · exact Or.inr hc
  · exact Or.inl (domain_char_local (hdall c hc))
  · subst hc; exact Or.inl (by decide)
  · exact Or.inl (alpha_char_local (htall c hc))

lemma email_char_not_ws {c : Char} (h : emailCharP c) : wsChar c = false := by
  cases hw : wsChar c with
  | false => rfl
  | true =>
      have hcs := hw
      simp only [wsChar, Bool.or_eq_true, beq_iff_eq] at hcs
      rcases hcs with ((((h1 | h1) | h1) | h1) | h1) | h1 <;> subst h1 <;>
        rcases h with h2 | h2 <;> exact absurd h2 (by decide)

lemma email_char_not_colon {c : Char} (h : emailCharP c) : (c == ':') = false := by
  cases hb : c == ':' with
  | false => rfl
  | true =>
      have hc : c = ':' := by simpa using hb
      subst hc
      rcases h with h2 | h2 <;> exact absurd h2 (by decide)

lemma takeWhile_ws_nil {cs : List Char} (h : ∀ c ∈ cs, wsChar c = false) :
    cs.takeWhile wsChar = [] := by
  cases cs with
  | nil => rfl
  | cons a l => simp [List.takeWhile_cons, h a (by simp)]

lemma nameWordAt_eq_some {cs w r : List Char} (h : nameWordAt cs = some (w, r)) :
    w = cs.takeWhile Char.isAlpha ∧ r = cs.dropWhile Char.isAlpha := by
  unfold nameWordAt at h
  by_cases hlen : 2 ≤ (cs.takeWhile Char.isAlpha).length
  · rw [if_pos hlen] at h
    injection h with h2
    exact ⟨(congrArg Prod.fst h2).symm, (congrArg Prod.snd h2).symm⟩
  · rw [if_neg hlen] at h
    exact absurd h (by simp)

lemma findSome?_none_of {α β : Type} {f : α → Option β} {l : List α}
    (h : ∀ a ∈ l, f a = none) : l.findSome? f = none := by
  induction l with
  | nil => rfl
  | cons a l ih =>
      rw [List.findSome?_cons, h a (List.mem_cons_self a l)]
      exact ih fun x hx => h x (List.mem_cons_of_mem a hx)

lemma p1At_none {cs : List Char} (h : ∀ c ∈ cs, emailCharP c) : p1At cs = none := by
  unfold p1At
  have hnone : ∀ ph ∈ p1Phrases,
      (if startsB ph (pyLower cs) then
        if ((cs.drop ph.length).takeWhile wsChar).isEmpty then none
        else (matchW ((cs.drop ph.length).dropWhile wsChar)).map Prod.fst
      else none) = (none : Option (List Char)) := by
    intro ph _
    cases hs : startsB ph (pyLower cs) with
    | false => simp
    | true =>
        have hws : (cs.drop ph.length).takeWhile wsChar = [] :=
          takeWhile_ws_nil fun c hc =>
            email_char_not_ws (h c (List.mem_of_mem_drop hc))
        simp [hws]
  exact findSome?_none_of hnone

lemma p2At_none {cs : List Char} (h : ∀ c ∈ cs, emailCharP c) : p2At cs = none := by
  unfold p2At
  cases hs : startsB "name".data (pyLower cs) with
  | false => simp
  | true =>
      have hws : (cs.drop 4).takeWhile (fun c => c == ':' || wsChar c) = [] := by
        cases hd : cs.drop 4 with
        | nil => rfl
        | cons a l =>
            have ha : a ∈ cs := by
              have : a ∈ cs.drop 4 := by rw [hd]; exact List.mem_cons_self a l
              exact List.mem_of_mem_drop this
            simp [List.takeWhile_cons, email_char_not_ws (h a ha),
              email_char_not_colon (h a ha)]
      simp [hws]

lemma p3Match_none {cs : List Char} (hat : '@' ∈ cs)
    (h : ∀ c ∈ cs, emailCharP c) : p3Match cs = none := by
  unfold p3Match
  cases hnw : nameWordAt cs with
  | none => rfl
  | some p =>
      obtain ⟨w1, r1⟩ := p
      obtain ⟨-, hr1⟩ := nameWordAt_eq_some hnw
      have hsplit : cs.takeWhile Char.isAlpha ++ r1 = cs := by
        rw [hr1]; exact List.takeWhile_append_dropWhile Char.isAlpha cs
      have hat1 : '@' ∈ r1 := by
        rw [← hsplit] at hat
        rcases List.mem_append.mp hat with hx | hx
        · exact absurd (List.mem_takeWhile_imp hx) (by decide)
        · exact hx
      have hsub : ∀ c ∈ r1, wsChar c = false := fun c hc =>
        email_char_not_ws (h c (by rw [← hsplit]; exact List.mem_append_right _ hc))
      have h1 : r1.takeWhile wsChar = [] := takeWhile_ws_nil hsub
      have h2 : r1.isEmpty = false := by
        rw [isEmpty_false_iff]; exact List.ne_nil_of_mem hat1
      simp [h1, h2]

lemma p4At_none {cs : List Char} (h : ∀ c ∈ cs, emailCharP c) : p4At cs = none := by
  unfold p4At
  cases hnw : nameWordAt cs with
  | none => rfl
  | some p =>
      obtain ⟨w1, r1⟩ := p
      obtain ⟨-, hr1⟩ := nameWordAt_eq_some hnw
      have hsub : ∀ c ∈ r1, wsChar c = false := by
        intro c hc
        refine email_char_not_ws (h c ?_)
        have hsplit : cs.takeWhile Char.isAlpha ++ r1 = cs := by
          rw [hr1]; exact List.takeWhile_append_dropWhile Char.isAlpha cs
        rw [← hsplit]
        exact List.mem_append_right _ hc
      simp [takeWhile_ws_nil hsub]

lemma searchFrom_none {P : Char → Prop} {f : List Char → Option (List Char)}
    (hf : ∀ ds : List Char, (∀ c ∈ ds, P c) → f ds = none) :
    ∀ cs : List Char, (∀ c ∈ cs, P c) → searchFrom f cs = none := by
  intro cs
  induction cs with
  | nil => intro h; exact hf [] (by simp)
  | cons a l ih =>
      intro h
      unfold searchFrom
      rw [hf (a :: l) h]
      exact ih fun c hc => h c (List.mem_cons_of_mem a hc)

/-- C8 counterexample: the message `"max@box.com"` consists only of an
e-mail address, yet the extractor also yields platform `Twitter`, because
the single-letter key `x` of the platform table occurs inside the e-mail
text; the claim that such a message never yields a platform fails. -/
theorem email_only_message_platform_cex :
    emailSpec "max@box.com".data ∧
    (extract_info_from_message "max@box.com".data).platform = some "Twitter".data ∧
    (extract_info_from_message "max@box.com".data).email = some "max@box.com".data :=
  ⟨(validCore_iff _).mp (by decide), by decide, by decide⟩

/-- C8 (amended): a message consisting only of an e-mail address never
yields a name (none of the four name patterns can fire without whitespace
or a colon, and the message cannot be all letters), but it may yield a
platform when a platform key occurs as a substring of the e-mail text, so
the result contains at most the email and platform fields. -/
theorem email_only_message_no_name (cs : List Char) (h : emailSpec cs) :
    (extract_info_from_message cs).name = none := by
  have hch := emailSpec_chars h
  have hat : '@' ∈ cs := by
    obtain ⟨l, d, t, hcs, -⟩ := h
    rw [hcs]; simp
  show extractName cs = none
  unfold extractName
  have e1 : searchFrom p1At cs = none :=
    searchFrom_none (fun ds hds => p1At_none hds) cs hch
  have e2 : searchFrom p2At cs = none :=
    searchFrom_none (fun ds hds => p2At_none hds) cs hch
  have e3 : p3Match cs = none := p3Match_none hat hch
  have e4 : searchFrom p4At cs = none :=
    searchFrom_none (fun ds hds => p4At_none hds) cs hch
  rw [e1, e2, e3, e4]
  rfl

/-- C8 witness: a concrete e-mail-only message yields no name. -/
theorem email_only_message_no_name_witness :
    (extract_info_from_message "john.doe@example.com".data).name = none :=
  email_only_message_no_name "john.doe@example.com".data
    ⟨"john.doe".data, "example".data, "com".data,
      by decide, by decide, by decide, by decide, by decide, by decide, by decide⟩

lemma truthy_isSome {o : Option (List Char)} (h : truthy o = true) :
    o.isSome = true := by
  cases o with
  | none => exact absurd h (by decide)
  | some v => rfl

lemma mergeLead_name_some {ld : LeadInfo} {ex : ExtractedInfo} {v : List Char}
    (h : ld.name = some v) : (mergeLead ld ex).name = some v := by
  unfold mergeLead
  simp [h]

lemma mergeLead_email_some {ld : LeadInfo} {ex : ExtractedInfo} {v : List Char}
    (h : ld.email = some v) : (mergeLead ld ex).email = some v := by
  unfold mergeLead
  simp [h]

lemma mergeLead_platform_some {ld : LeadInfo} {ex : ExtractedInfo} {v : List Char}
    (h : ld.platform = some v) : (mergeLead ld ex).platform = some v := by
  unfold mergeLead
  simp [h]

lemma mergeLead_id_of_allSome {ld : LeadInfo} {ex : ExtractedInfo}
    (hn : ld.name.isSome = true) (he : ld.email.isSome = true)
    (hp : ld.platform.isSome = true) : mergeLead ld ex = ld := by
  cases ld with
  | mk n e p =>
      obtain ⟨a, ha⟩ := Option.isSome_iff_exists.mp hn
      obtain ⟨b, hb⟩ := Option.isSome_iff_exists.mp he
      obtain ⟨c, hc⟩ := Option.isSome_iff_exists.mp hp
      simp only at ha hb hc
      subst ha hb hc
      simp [mergeLead]

lemma computeMissing_nil_iff {ld : LeadInfo} :
    computeMissing ld = [] ↔
      (ld.name.isSome = true ∧ ld.email.isSome = true ∧ ld.platform.isSome = true) := by
  cases ld with
  | mk n e p => cases n <;> cases e <;> cases p <;> simp [computeMissing]

lemma check_false_of_invalid {ld : LeadInfo}
    (hv : validate_email (ld.email.getD []) = false) :
    check_lead_info_complete ld = false := by
  unfold check_lead_info_complete
  simp [hv]

lemma processTurn_lead (s : AgentState) (msg raw g i : List Char) :
    (processTurn s msg raw g i).state.lead_info = s.lead_info ∨
    (processTurn s msg raw g i).state.lead_info
      = mergeLead s.lead_info (extract_info_from_message msg) := by
  unfold processTurn
  cases hres : resolveIntent s raw with
  | greeting => left; rfl
  | product_inquiry => left; rfl
  | high_intent_lead =>
      right
      show (if check_lead_info_complete (handle_lead s.lead_info msg).1
          then _ else _ : TurnResult).state.lead_info = _
      split <;> rfl

/-- C1: once a lead field holds a non-empty value, no later turn changes it
(the hypothesis excludes the claimed override case of an invalidly stored
e-mail; in fact the code never overwrites any present key). -/
theorem lead_fields_set_once (s : AgentState) (msg raw g i : List Char)
    (v : List Char) :
    (s.lead_info.name = some v → v ≠ [] →
      (processTurn s msg raw g i).state.lead_info.name = some v) ∧
    (s.lead_info.email = some v → v ≠ [] → validate_email v = true →
      (processTurn s msg raw g i).state.lead_info.email = some v) ∧
    (s.lead_info.platform = some v → v ≠ [] →
      (processTurn s msg raw g i).state.lead_info.platform = some v) := by
  have hl := processTurn_lead s msg raw g i
  refine ⟨?_, ?_, ?_⟩
  · intro hv _
    rcases hl with h | h <;> rw [h]
    · exact hv
    · exact mergeLead_name_some hv
  · intro hv _ _
    rcases hl with h | h <;> rw [h]
    · exact hv
    · exact mergeLead_email_some hv
  · intro hv _
    rcases hl with h | h <;> rw [h]
    · exact hv
    · exact mergeLead_platform_some hv

/-- C1 witness: a message that extracts a fresh name and platform does not
overwrite the stored fields. -/
theorem lead_fields_set_once_witness :
    (processTurn stateC1w "call me Bob on Instagram".data [] [] []
      ).state.lead_info.name = some "John".data ∧
    (processTurn stateC1w "call me Bob on Instagram".data [] [] []
      ).state.lead_info.email = some "a@b.cc".data ∧
    (processTurn stateC1w2 "hi".data [] [] []).state.lead_info.platform
      = some "YouTube".data :=
  ⟨(lead_fields_set_once stateC1w "call me Bob on Instagram".data [] [] []
      "John".data).1 rfl (by decide),
   (lead_fields_set_once stateC1w "call me Bob on Instagram".data [] [] []
      "a@b.cc".data).2.1 rfl (by decide) (by decide),
   (lead_fields_set_once stateC1w2 "hi".data [] [] []
      "YouTube".data).2.2 rfl (by decide)⟩

/-- C2: while the slot-filling predicate holds, the turn resolves intent to
`high_intent_lead` and its entire result is independent of the classifier's
raw output — the classifier is never consulted. -/
theorem slot_filling_forces_lead_intent (s : AgentState) (msg raw g i : List Char)
    (h : is_collecting s.lead_info = true) :
    (processTurn s msg raw g i).state.intent = "high_intent_lead".data ∧
    ∀ raw2 : List Char, processTurn s msg raw g i = processTurn s msg raw2 g i := by
  have hres : ∀ r : List Char, resolveIntent s r = Intent.high_intent_lead := by
    intro r
    unfold resolveIntent
    rw [if_pos h]
  constructor
  · unfold processTurn
    rw [hres raw]
    show (if check_lead_info_complete (handle_lead s.lead_info msg).1
        then _ else _ : TurnResult).state.intent = _
    split <;> rfl
  · intro raw2
    unfold processTurn
    rw [hres raw, hres raw2]

/-- C2 witness: even a raw classifier response of `greeting` cannot bounce
a slot-filling turn out of the lead branch. -/
theorem slot_filling_forces_lead_intent_witness :
    (processTurn stateC2w "no thanks".data "greeting".data [] []
      ).state.intent = "high_intent_lead".data :=
  (slot_filling_forces_lead_intent stateC2w "no thanks".data "greeting".data [] []
    (by decide)).1

/-- C3: with all three fields present and an invalid stored e-mail, the
turn invokes no sink and keeps the e-mail, but its only response is the
acknowledgement `Thank you! I have all the information I need.` — the turn
never asks for a valid e-mail (the `_collect_lead_info` re-prompt is dead
code because `_check_lead_info_complete` already gates on validity). -/
theorem invalid_email_complete_turn_behavior :
    (processTurn stateC3 "hi".data "x".data [] []).sinkEvents = [] ∧
    (processTurn stateC3 "hi".data "x".data [] []).state.lead_info.email
      = some "john@invalid".data ∧
    (processTurn stateC3 "hi".data "x".data [] []).aiMessages = [thanksMsg] ∧
    containsB "valid email".data thanksMsg = false ∧
    validate_email "john@invalid".data = false := by
  decide

lemma deadEnd_collecting {ld : LeadInfo} (h : deadEndB ld = true) :
    is_collecting ld = true := by
  unfold deadEndB at h
  simp only [Bool.and_eq_true, Bool.not_eq_true'] at h
  obtain ⟨⟨⟨hn, he⟩, hv⟩, hp⟩ := h
  have hns : ld.name.isSome = true := truthy_isSome hn
  unfold is_collecting leadNonEmpty
  rw [hns]
  simp [hv]

lemma deadEnd_step (s : AgentState) (msg raw g i : List Char)
    (h : deadEndB s.lead_info = true) :
    processTurn s msg raw g i =
      { state := { lead_info := s.lead_info, intent := Intent.high_intent_lead.value,
                   conversation_turn := s.conversation_turn + 1 },
        aiMessages := [thanksMsg], sinkEvents := [] } := by
  have hcol := deadEnd_collecting h
  have hres : resolveIntent s raw = Intent.high_intent_lead := by
    unfold resolveIntent
    rw [if_pos hcol]
  unfold deadEndB at h
  simp only [Bool.and_eq_true, Bool.not_eq_true'] at h
  obtain ⟨⟨⟨hn, he⟩, hv⟩, hp⟩ := h
  have hns : s.lead_info.name.isSome = true := truthy_isSome hn
  have hps : s.lead_info.platform.isSome = true := truthy_isSome hp
  have hmerge : mergeLead s.lead_info (extract_info_from_message msg) = s.lead_info :=
    mergeLead_id_of_allSome hns he hps
  have hmiss : computeMissing s.lead_info = [] :=
    computeMissing_nil_iff.mpr ⟨hns, he, hps⟩
  have hhl : handle_lead s.lead_info msg = (s.lead_info, thanksMsg) := by
    unfold handle_lead
    rw [hmerge, hmiss]
    rfl
  have hcheck : check_lead_info_complete s.lead_info = false :=
    check_false_of_invalid hv
  unfold processTurn
  rw [hres]
  show (if check_lead_info_complete (handle_lead s.lead_info msg).1
      then _ else _ : TurnResult) = _
  rw [hhl]
  show (if check_lead_info_complete s.lead_info then _ else _ : TurnResult) = _
  rw [hcheck]
  rfl

lemma deadEnd_run (turns : List TurnInput) :
    ∀ s : AgentState, deadEndB s.lead_info = true → (runTurns s turns).2 = [] := by
  induction turns with
  | nil => intro s _; rfl
  | cons t ts ih =>
      intro s h
      unfold runTurns
      rw [deadEnd_step s t.msg t.raw t.greetText t.inquiryText h]
      simp only [List.nil_append]
      exact ih _ h

/-- C4: from a state with truthy name and platform and a stored e-mail that
fails validation, every turn resolves to `high_intent_lead`, preserves the
whole lead (in particular the invalid e-mail), invokes no sink, and stays
in the same dead-end class, so no sequence of further turns ever reaches
the lead-capture sink. -/
theorem invalid_email_dead_end (s : AgentState) (msg raw g i : List Char)
    (turns : List TurnInput) (h : deadEndB s.lead_info = true) :
    (processTurn s msg raw g i).state.intent = "high_intent_lead".data ∧
    (processTurn s msg raw g i).state.lead_info = s.lead_info ∧
    (processTurn s msg raw g i).sinkEvents = [] ∧
    deadEndB (processTurn s msg raw g i).state.lead_info = true ∧
    (runTurns s turns).2 = [] := by
  have hstep := deadEnd_step s msg raw g i h
  refine ⟨?_, ?_, ?_, ?_, deadEnd_run turns s h⟩
  · rw [hstep]
    rfl
  · rw [hstep]
  · rw [hstep]
  · rw [hstep]
    exact h

/-- C4 witness: even a later message carrying a perfectly valid e-mail
cannot repair the dead-end state or reach the sink. -/
theorem invalid_email_dead_end_witness :
    (runTurns stateC4w
      [⟨"my email is john.doe@example.com".data, "x".data, [], []⟩]).2 = [] :=
  (invalid_email_dead_end stateC4w [] [] [] []
    [⟨"my email is john.doe@example.com".data, "x".data, [], []⟩]
    (by decide)).2.2.2.2

/-- C9 counterexample: an empty-string name is not treated like an absent
name by the missing-field computation — with the key present-but-empty the
turn claims to have all information, while with the key absent it asks for
the name. -/
theorem empty_string_field_distinguished_cex :
    computeMissing leadEmptyName = [] ∧
    computeMissing leadNoName = [nameLabel] ∧
    (processTurn stateEmptyName [] [] [] []).aiMessages = [thanksMsg] ∧
    (processTurn stateNoName [] [] [] []).aiMessages = [askNameMsg] := by
  decide

/-- C9 (amended): the truthiness-based checks (the completeness check, and
the completeness part of the override check) treat an empty-string field as
absent, but the key-presence-based operations (dict non-emptiness and the
missing-field computation of the lead branch) treat it as present. -/
theorem empty_string_field_treatment (e p : Option (List Char)) :
    (check_lead_info_complete ⟨some [], e, p⟩
      = check_lead_info_complete ⟨none, e, p⟩) ∧
    ((e.isSome = true ∨ p.isSome = true) →
      is_collecting ⟨some [], e, p⟩ = is_collecting ⟨none, e, p⟩) ∧
    computeMissing ⟨some [], e, p⟩ ≠ computeMissing ⟨none, e, p⟩ := by
  refine ⟨rfl, ?_, ?_⟩
  · intro h
    unfold is_collecting leadNonEmpty
    rcases h with h | h <;> simp [h, truthy]
  · cases e <;> cases p <;> simp [computeMissing, nameLabel]

/-- C9 witness: with another key present, the override check cannot tell an
empty-string name from an absent one. -/
theorem empty_string_field_treatment_witness :
    is_collecting ⟨some [], some "a@b.cc".data, none⟩
      = is_collecting ⟨none, some "a@b.cc".data, none⟩ :=
  (empty_string_field_treatment (some "a@b.cc".data) none).2.1 (Or.inl rfl)

/-- C10 counterexample: the lead branch can find the missing set empty with
a valid stored e-mail and still not invoke the sink, because the
completeness check additionally requires truthy name and platform. -/
theorem complete_with_empty_name_no_sink_cex :
    computeMissing (mergeLead stateC10.lead_info (extract_info_from_message [])) = [] ∧
    validate_email
      ((mergeLead stateC10.lead_info (extract_info_from_message [])).email.getD [])
      = true ∧
    (processTurn stateC10 [] [] [] []).sinkEvents = [] ∧
    (processTurn stateC10 [] [] [] []).aiMessages = [thanksMsg] := by
  decide

lemma startsB_self_append (n b : List Char) : startsB n (n ++ b) = true := by
  induction n with
  | nil => rfl
  | cons a as ih => simp [startsB, ih]

lemma containsB_nil_left (b : List Char) : containsB [] b = true := by
  cases b <;> rfl

lemma containsB_self_append (n b : List Char) : containsB n (n ++ b) = true := by
  cases n with
  | nil => exact containsB_nil_left b
  | cons c cs =>
      have h1 : startsB (c :: cs) ((c :: cs) ++ b) = true := startsB_self_append _ b
      show (startsB (c :: cs) ((c :: cs) ++ b) || containsB (c :: cs) (cs ++ b)) = true
      rw [h1]
      rfl

lemma containsB_of_mid {n h a b : List Char} (hh : h = a ++ (n ++ b)) :
    containsB n h = true := by
  subst hh
  induction a with
  | nil => exact containsB_self_append n b
  | cons x xs ih =>
      show (startsB n (x :: (xs ++ (n ++ b))) || containsB n (xs ++ (n ++ b))) = true
      rw [ih]
      simp

/-- C10 (amended): whenever a turn routes to the lead branch, the merged
missing set is empty, the stored e-mail validates and the stored name and
platform are non-empty, the sink is invoked exactly once with the stored
triple and the confirmation text contains all three values. -/
theorem lead_completion_invokes_sink (s : AgentState) (msg raw g i : List Char)
    (hroute : is_collecting s.lead_info = true ∨ detect raw = Intent.high_intent_lead)
    (hmiss : computeMissing (mergedLead s msg) = [])
    (hname : truthy (mergedLead s msg).name = true)
    (hplat : truthy (mergedLead s msg).platform = true)
    (hvalid : validate_email ((mergedLead s msg).email.getD []) = true) :
    (processTurn s msg raw g i).sinkEvents
      = [((mergedLead s msg).name.getD [], (mergedLead s msg).email.getD [],
          (mergedLead s msg).platform.getD [])] ∧
    (processTurn s msg raw g i).aiMessages
      = [thanksMsg,
         confirmationMsg ((mergedLead s msg).name.getD [])
           ((mergedLead s msg).email.getD []) ((mergedLead s msg).platform.getD [])] ∧
    containsB ((mergedLead s msg).name.getD [])
      (confirmationMsg ((mergedLead s msg).name.getD [])
        ((mergedLead s msg).email.getD []) ((mergedLead s msg).platform.getD []))
      = true ∧
    containsB ((mergedLead s msg).email.getD [])
      (confirmationMsg ((mergedLead s msg).name.getD [])
        ((mergedLead s msg).email.getD []) ((mergedLead s msg).platform.getD []))
      = true ∧
    containsB ((mergedLead s msg).platform.getD [])
      (confirmationMsg ((mergedLead s msg).name.getD [])
        ((mergedLead s msg).email.getD []) ((mergedLead s msg).platform.getD []))
      = true := by
  have hres : resolveIntent s raw = Intent.high_intent_lead := by
    unfold resolveIntent
    rcases hroute with h | h
    · rw [if_pos h]
    · by_cases hc : is_collecting s.lead_info = true
      · rw [if_pos hc]
      · rw [if_neg hc, h]
  have htruthyE : truthy (mergedLead s msg).email = true := by
    have hsome : (mergedLead s msg).email.isSome = true :=
      (computeMissing_nil_iff.mp hmiss).2.1
    obtain ⟨e, he⟩ := Option.isSome_iff_exists.mp hsome
    rw [he] at hvalid ⊢
    cases e with
    | nil => exact absurd hvalid (by decide)
    | cons c cs => rfl
  have hcheck : check_lead_info_complete (mergedLead s msg) = true := by
    unfold check_lead_info_complete
    rw [hname, htruthyE, hvalid, hplat]
    rfl
  have hhl : handle_lead s.lead_info msg = (mergedLead s msg, thanksMsg) := by
    unfold handle_lead mergedLead
    unfold mergedLead at hmiss
    rw [hmiss]
    rfl
  have hcol : collect_lead_info (mergedLead s msg)
      = ([confirmationMsg ((mergedLead s msg).name.getD [])
            ((mergedLead s msg).email.getD []) ((mergedLead s msg).platform.getD [])],
         [((mergedLead s msg).name.getD [], (mergedLead s msg).email.getD [],
           (mergedLead s msg).platform.getD [])]) := by
    unfold collect_lead_info
    rw [hvalid]
    rfl
  have hpt : processTurn s msg raw g i =
      { state := { lead_info := mergedLead s msg,
                   intent := Intent.high_intent_lead.value,
                   conversation_turn := s.conversation_turn + 1 },
        aiMessages := [thanksMsg,
          confirmationMsg ((mergedLead s msg).name.getD [])
            ((mergedLead s msg).email.getD []) ((mergedLead s msg).platform.getD [])],
        sinkEvents := [((mergedLead s msg).name.getD [],
          (mergedLead s msg).email.getD [], (mergedLead s msg).platform.getD [])] } := by
    unfold processTurn
    rw [hres]
    show (if check_lead_info_complete (handle_lead s.lead_info msg).1
        then _ else _ : TurnResult) = _
    rw [hhl]
    show (if check_lead_info_complete (mergedLead s msg) then _ else _ : TurnResult) = _
    rw [hcheck]
    show ({ state := _, aiMessages := thanksMsg :: (collect_lead_info (mergedLead s msg)).1,
            sinkEvents := (collect_lead_info (mergedLead s msg)).2 } : TurnResult) = _
    rw [hcol]
  refine ⟨by rw [hpt], by rw [hpt], ?_, ?_, ?_⟩
  · refine containsB_of_mid
      (a := "Perfect! I\x27ve captured your information:\n- Name: ".data)
      (b := "\n- Email: ".data ++ (mergedLead s msg).email.getD []
        ++ "\n- Platform: ".data ++ (mergedLead s msg).platform.getD []
        ++ "\n\nOur team will reach out to you shortly to help you get started with AutoStream!".data)
      ?_
    simp [confirmationMsg, List.append_assoc]
  · refine containsB_of_mid
      (a := "Perfect! I\x27ve captured your information:\n- Name: ".data
        ++ (mergedLead s msg).name.getD [] ++ "\n- Email: ".data)
      (b := "\n- Platform: ".data ++ (mergedLead s msg).platform.getD []
        ++ "\n\nOur team will reach out to you shortly to help you get started with AutoStream!".data)
      ?_
    simp [confirmationMsg, List.append_assoc]
  · refine containsB_of_mid
      (a := "Perfect! I\x27ve captured your information:\n- Name: ".data
        ++ (mergedLead s msg).name.getD [] ++ "\n- Email: ".data
        ++ (mergedLead s msg).email.getD [] ++ "\n- Platform: ".data)
      (b := "\n\nOur team will reach out to you shortly to help you get started with AutoStream!".data)
      ?_
    simp [confirmationMsg, List.append_assoc]

/-- C10 witness: the turn that supplies the last missing field invokes the
sink exactly once with the full stored triple. -/
theorem lead_completion_invokes_sink_witness :
    (processTurn stateC10w "I post on YouTube".data [] [] []).sinkEvents
      = [("John Doe".data, "john.doe@example.com".data, "YouTube".data)] :=
  ((lead_completion_invokes_sink stateC10w "I post on YouTube".data [] [] []
    (Or.inl (by decide)) (by decide) (by decide) (by decide) (by decide)).1).trans
    (by decide)
